import Mathlib

/-!
Shallow embedding of the grid aggregation and spatial-indicator engine of
the `city-boundary-dashboard` repository (`src/indicators.py`,
`src/landuse.py`).

Modelling conventions:
* pandas/numpy float columns are modelled by `PFloat`: an exact rational
  together with the IEEE special values NaN, +inf and -inf, which is what
  the divide-by-zero behaviour of the claims is about;
* shapely geometries are abstracted by a type `G` together with a
  `GeomOps G` record holding exactly the operations the source uses
  (`area`, intersection via `gpd.overlay`, the point-in-polygon `within`
  predicate of `gpd.sjoin`, `centroid`, `total_bounds`, `box`) and the
  contracts shapely guarantees for them; the concrete instance `boxOps`
  on axis-aligned rectangles is used for witnesses and for the claims
  that depend on the exact `within` semantics;
* the `while` loops of `make_square_grid` are embedded by structural
  recursion on the iteration count `stepCount`, which is proved to be the
  exact number of iterations of `x = lo; while x < hi: x += s` when
  `s > 0`; termination of that loop in general is the separate predicate
  `loopTerminates`.
-/

/-- A pandas/numpy float cell value: a finite rational or one of the IEEE
special values produced by float division. -/
inductive PFloat where
  | val : ℚ → PFloat
  | nan : PFloat
  | inf : PFloat
  | ninf : PFloat
deriving DecidableEq

namespace PFloat

/-- Float division as performed by pandas on two finite values
(`a / b` on float columns): division by zero yields NaN when the numerator
is also zero and a signed infinity otherwise; a nonzero divisor yields an
ordinary finite value. -/
def pdiv (a b : ℚ) : PFloat :=
  if b = 0 then
    if a = 0 then PFloat.nan
    else if 0 < a then PFloat.inf
    else PFloat.ninf
  else PFloat.val (a / b)

/-- Embedding of `Series.fillna(0)`: replaces NaN by 0 and leaves every other value,
including the infinities, unchanged. -/
def fillna0 : PFloat → PFloat
  | PFloat.nan => PFloat.val 0
  | x => x

/-- Multiplication by the positive literal `100` (the `* 100` of the
`footprint_coverage` formula): scales a finite value and fixes NaN and the
infinities. -/
def mul100 : PFloat → PFloat
  | PFloat.val a => PFloat.val (a * 100)
  | x => x

/-- A value is finite (representable, not NaN and not infinite) exactly
when it is a `val`. -/
def isFinite : PFloat → Bool
  | PFloat.val _ => true
  | _ => false

theorem isFinite_pdiv_of_ne (a b : ℚ) (hb : b ≠ 0) : (pdiv a b).isFinite = true := by
  simp [pdiv, hb, isFinite]

theorem pdiv_zero_zero : pdiv 0 0 = PFloat.nan := by
  simp [pdiv]

theorem pdiv_pos_zero (a : ℚ) (ha : 0 < a) : pdiv a 0 = PFloat.inf := by
  simp [pdiv, ha, ne_of_gt ha]

end PFloat

/-- A tag value as seen by `row.get(k)` in `categorize_pois` /
`classify_landuse`: a string tag, the Python booleans, or a missing value
(`None` / NaN, i.e. anything `pd.notna` rejects). -/
inductive TagValue where
  | str : String → TagValue
  | boolTrue : TagValue
  | boolFalse : TagValue
  | null : TagValue
deriving DecidableEq

namespace TagValue

/-- Embedding of `pd.notna(v)`. -/
def notna : TagValue → Bool
  | TagValue.null => false
  | _ => true

/-- The f-string rendering of a tag value, as Python interpolates it into
the category label. -/
def render : TagValue → String
  | TagValue.str s => s
  | TagValue.boolTrue => "True"
  | TagValue.boolFalse => "False"
  | TagValue.null => "nan"

end TagValue

/-- The inner `pick(row)` closure shared by `categorize_pois`
(`indicators.py` lines 39-44) and `classify_landuse` (`landuse.py` lines
49-54): scan the candidate keys in priority order, return the decorated
first non-null value, and fall back to the literal string. A row is
modelled as a total map from key to `TagValue`, with `TagValue.null` for
absent keys. -/
def pick (preferred : List String) (row : String → TagValue) : String :=
  match preferred with
  | [] => "unknown"
  | k :: ks =>
      if (row k).notna then
        if row k = TagValue.boolTrue then k else k ++ ":" ++ (row k).render
      else pick ks row

/-- The candidate-key priority list of `categorize_pois`. -/
def preferredPoiKeys : List String := ["amenity", "leisure"]

/-- The candidate-key priority list of `classify_landuse`. -/
def preferredLanduseKeys : List String := ["landuse", "natural", "leisure", "landcover"]

/-- The category string `categorize_pois` assigns to one feature row. -/
def categorize_pois_row (row : String → TagValue) : String :=
  pick preferredPoiKeys row

/-- The category string `classify_landuse` assigns to one feature row. -/
def classify_landuse_row (row : String → TagValue) : String :=
  pick preferredLanduseKeys row

/-- The `total_bounds` of a GeoDataFrame: `(minx, miny, maxx, maxy)`. -/
structure BBounds where
  minx : ℚ
  miny : ℚ
  maxx : ℚ
  maxy : ℚ
deriving DecidableEq

/-- The geometry operations of shapely/geopandas that the indicator code
uses, together with the contracts shapely guarantees for them:
* `area` is nonnegative;
* the area of an intersection (`gpd.overlay(..., how="intersection")`) is
  at most the area of either operand;
* the `within` predicate of `gpd.sjoin` holds for a point and a geometry
  exactly when the point lies in the geometry's interior, so a point
  within an intersection is within both operands, and a point is within a
  `shapely.geometry.box` exactly when its coordinates are strictly
  between the box bounds. -/
structure GeomOps (G : Type) where
  area : G → ℚ
  inter : G → G → G
  withinPt : ℚ × ℚ → G → Bool
  centroid : G → ℚ × ℚ
  bounds : G → BBounds
  mkBox : ℚ → ℚ → ℚ → ℚ → G
  area_nonneg : ∀ g, 0 ≤ area g
  area_inter_le : ∀ a b, area (inter a b) ≤ area a
  area_mkBox : ∀ x1 y1 x2 y2, x1 ≤ x2 → y1 ≤ y2 →
    area (mkBox x1 y1 x2 y2) = (x2 - x1) * (y2 - y1)
  withinPt_inter : ∀ p a b, withinPt p (inter a b) = true →
    withinPt p a = true ∧ withinPt p b = true
  withinPt_mkBox : ∀ p x1 y1 x2 y2,
    withinPt p (mkBox x1 y1 x2 y2) = true ↔
      (x1 < p.1 ∧ p.1 < x2 ∧ y1 < p.2 ∧ p.2 < y2)

/-- One row of the grid GeoDataFrame produced by `make_square_grid`:
the clipped geometry plus the columns assigned in lines 80-84 of
`indicators.py`. -/
structure GridCell (G : Type) where
  geometry : G
  area_km2 : ℚ
  cell_area_km2_full : ℚ
  coverage_ratio : ℚ
  cell_id : ℕ
deriving DecidableEq

/-- One row of a building GeoDataFrame: a polygonal footprint geometry. -/
structure Building (G : Type) where
  geom : G
deriving DecidableEq

/-- Termination of the loop `x = lo` , `while x < hi: ... ; x += s` under
exact arithmetic: some iterate `lo + n * s` reaches `hi`. -/
def loopTerminates (lo hi s : ℚ) : Prop :=
  ∃ n : ℕ, hi ≤ lo + n * s

/-- The number of iterations of `x = lo; while x < hi: x += s` when
`s > 0` (proved below in `stepCount_pos_iff`): the least `n` with
`lo + n * s ≥ hi`. -/
def stepCount (lo hi s : ℚ) : ℕ :=
  ⌈(hi - lo) / s⌉₊

/-- The inner `while y < maxy` loop of `make_square_grid`, run for `ny`
iterations from `lo`: the square origins of one column of the tiling at
abscissa `x`. -/
def colOrigins (x lo s : ℚ) : ℕ → List (ℚ × ℚ)
  | 0 => []
  | ny + 1 => (x, lo) :: colOrigins x (lo + s) s ny

/-- The outer `while x < maxx` loop of `make_square_grid`, run for `n`
iterations from `lo`, each running the inner loop for `ny` iterations
from `miny`: all square origins in iteration order. -/
def rowsOrigins (lo miny s : ℚ) (ny : ℕ) : ℕ → List (ℚ × ℚ)
  | 0 => []
  | n + 1 => colOrigins lo miny s ny ++ rowsOrigins (lo + s) miny s ny n

/-- The origins of the squares appended by the nested loops of
`make_square_grid` (lines 69-76 of `indicators.py`), in iteration order. -/
def tileOrigins (minx miny maxx maxy s : ℚ) : List (ℚ × ℚ) :=
  rowsOrigins minx miny s (stepCount miny maxy s) (stepCount minx maxx s)

/-- The columns of one grid row as assigned in lines 80-84 of
`indicators.py`, for clipped geometry `g` and `cell_id` `idx`. -/
def cellOfGeom {G : Type} (ops : GeomOps G) (s : ℚ) (idx : ℕ) (g : G) : GridCell G :=
  { geometry := g
    area_km2 := ops.area g / 1000000
    cell_area_km2_full := s * s / 1000000
    coverage_ratio := (ops.area g / 1000000) / (s * s / 1000000)
    cell_id := idx }

/-- Embedding of `reset_index(drop=True)` followed by `cell_id = index`: number the
surviving geometries consecutively from `start`. -/
def withIds {G : Type} (ops : GeomOps G) (s : ℚ) (start : ℕ) : List G → List (GridCell G)
  | [] => []
  | g :: gs => cellOfGeom ops s start g :: withIds ops s (start + 1) gs

/-- Embedding of `make_square_grid` (lines 62-85 of `indicators.py`): tile the bounding
box of the boundary with squares of side `s`, clip every square to the
boundary (`gpd.overlay(..., how="intersection")`), keep the cells with
positive clipped area and number them consecutively. The nested `while`
loops are embedded through their iteration counts, which is faithful for
`s > 0`; their termination in general is `loopTerminates`. -/
def make_square_grid {G : Type} (ops : GeomOps G) (boundary : G) (s : ℚ) : List (GridCell G) :=
  let b := ops.bounds boundary
  let squares := (tileOrigins b.minx b.miny b.maxx b.maxy s).map
    (fun o => ops.mkBox o.1 o.2 (o.1 + s) (o.2 + s))
  let clipped := squares.map (fun sq => ops.inter sq boundary)
  let kept := clipped.filter (fun g => decide (0 < ops.area g / 1000000))
  withIds ops s 0 kept

/-- One row of the output of `aggregate_pois_to_grid`: all the grid
columns (kept by the left merge) plus the two indicator columns. -/
structure POIRow (G : Type) where
  cell : GridCell G
  count : ℕ
  density_per_km2 : PFloat
deriving DecidableEq

/-- Embedding of `aggregate_pois_to_grid` (lines 88-105 of `indicators.py`). When
either input is empty the code returns a fresh empty GeoDataFrame with
columns `cell_id, count, density_per_km2, geometry`, embedded as `[]`.
Otherwise `sjoin(..., predicate="within")` followed by
`groupby("cell_id").size()`, the left merge and `fillna(0)` give every
grid row the number of poi points within its geometry (`cell_id` is
unique in grids built by `make_square_grid`), and line 104 divides by
`cell_area_km2_full` with no divide-by-zero guard. -/
def aggregate_pois_to_grid {G : Type} (ops : GeomOps G)
    (pois : List (ℚ × ℚ)) (grid : List (GridCell G)) : List (POIRow G) :=
  if pois.isEmpty || grid.isEmpty then []
  else
    grid.map (fun c =>
      let cnt := (pois.filter (fun p => ops.withinPt p c.geometry)).length
      { cell := c
        count := cnt
        density_per_km2 := PFloat.pdiv (cnt : ℚ) c.cell_area_km2_full })

/-- One row of the output of `aggregate_buildings_to_grid`: all the grid
columns plus the four building indicator columns. -/
structure BuildingRow (G : Type) where
  cell : GridCell G
  building_count : ℕ
  building_area_km2 : ℚ
  building_density : PFloat
  footprint_coverage : PFloat
deriving DecidableEq

/-- The density denominator chosen in lines 190-193 of `indicators.py`:
the full cell area when the `cell_area_km2_full` column is present
(`hasFullCol`), the clipped `area_km2` otherwise. -/
def bDenom {G : Type} (hasFullCol : Bool) (c : GridCell G) : ℚ :=
  if hasFullCol then c.cell_area_km2_full else c.area_km2

/-- Embedding of `aggregate_buildings_to_grid` (lines 145-200 of `indicators.py`).
With empty inputs the grid is returned with zero-filled building columns.
Otherwise each building's full footprint area (computed before the
centroid substitution of line 175) is summed onto the cells whose
geometry contains the building's centroid under `within`;
`building_density` divides by the denominator with `0` replaced by NaN
and then `fillna(0)`, while `footprint_coverage` divides, scales by 100
and applies only `fillna(0)`. -/
def aggregate_buildings_to_grid {G : Type} (ops : GeomOps G)
    (bs : List (Building G)) (grid : List (GridCell G)) (hasFullCol : Bool) :
    List (BuildingRow G) :=
  if bs.isEmpty || grid.isEmpty then
    grid.map (fun c =>
      { cell := c, building_count := 0, building_area_km2 := 0
        building_density := PFloat.val 0, footprint_coverage := PFloat.val 0 })
  else
    grid.map (fun c =>
      let assigned := bs.filter (fun b => ops.withinPt (ops.centroid b.geom) c.geometry)
      let cnt := assigned.length
      let bArea := (assigned.map (fun b => ops.area b.geom / 1000000)).sum
      let denom := bDenom hasFullCol c
      { cell := c
        building_count := cnt
        building_area_km2 := bArea
        building_density :=
          PFloat.fillna0 (if denom = 0 then PFloat.nan else PFloat.pdiv (cnt : ℚ) denom)
        footprint_coverage := PFloat.fillna0 (PFloat.mul100 (PFloat.pdiv bArea denom)) })

/-- An axis-aligned rectangle `[x1, x2] × [y1, y2]` (possibly empty when
`x2 ≤ x1` or `y2 ≤ y1`): the concrete geometry model used for witnesses
and for the claims about the exact `within` semantics. -/
structure Box where
  x1 : ℚ
  y1 : ℚ
  x2 : ℚ
  y2 : ℚ
deriving DecidableEq

namespace Box

/-- shapely `.area` of a rectangle: zero when the rectangle is empty. -/
def area (b : Box) : ℚ :=
  max 0 (b.x2 - b.x1) * max 0 (b.y2 - b.y1)

/-- Intersection of two axis-aligned rectangles. -/
def inter (a b : Box) : Box :=
  ⟨max a.x1 b.x1, max a.y1 b.y1, min a.x2 b.x2, min a.y2 b.y2⟩

/-- shapely `point.within(rect)`: the point lies in the interior. -/
def withinPt (p : ℚ × ℚ) (b : Box) : Bool :=
  decide (b.x1 < p.1 ∧ p.1 < b.x2 ∧ b.y1 < p.2 ∧ p.2 < b.y2)

/-- shapely `.centroid` of a rectangle. -/
def centroid (b : Box) : ℚ × ℚ :=
  ((b.x1 + b.x2) / 2, (b.y1 + b.y2) / 2)

/-- The point `p` lies on the boundary of the (nonempty) rectangle `b`. -/
def onBoundary (p : ℚ × ℚ) (b : Box) : Prop :=
  (p.1 = b.x1 ∨ p.1 = b.x2 ∨ p.2 = b.y1 ∨ p.2 = b.y2) ∧
    b.x1 ≤ p.1 ∧ p.1 ≤ b.x2 ∧ b.y1 ≤ p.2 ∧ p.2 ≤ b.y2

end Box

/-- The rectangle instance of the geometry operations, with the shapely
contracts proved. -/
def boxOps : GeomOps Box where
  area := Box.area
  inter := Box.inter
  withinPt := Box.withinPt
  centroid := Box.centroid
  bounds := fun b => ⟨b.x1, b.y1, b.x2, b.y2⟩
  mkBox := fun x1 y1 x2 y2 => ⟨x1, y1, x2, y2⟩
  area_nonneg := by
    intro g
    have h1 : (0 : ℚ) ≤ max 0 (g.x2 - g.x1) := le_max_left _ _
    have h2 : (0 : ℚ) ≤ max 0 (g.y2 - g.y1) := le_max_left _ _
    exact mul_nonneg h1 h2
  area_inter_le := by
    intro a b
    have hx : max 0 (min a.x2 b.x2 - max a.x1 b.x1) ≤ max 0 (a.x2 - a.x1) := by
      apply max_le (le_max_left _ _)
      apply le_max_of_le_right
      have := min_le_left a.x2 b.x2
      have := le_max_left a.x1 b.x1
      linarith
    have hy : max 0 (min a.y2 b.y2 - max a.y1 b.y1) ≤ max 0 (a.y2 - a.y1) := by
      apply max_le (le_max_left _ _)
      apply le_max_of_le_right
      have := min_le_left a.y2 b.y2
      have := le_max_left a.y1 b.y1
      linarith
    have h1 : (0 : ℚ) ≤ max 0 (min a.x2 b.x2 - max a.x1 b.x1) := le_max_left _ _
    have h2 : (0 : ℚ) ≤ max 0 (min a.y2 b.y2 - max a.y1 b.y1) := le_max_left _ _
    have h3 : (0 : ℚ) ≤ max 0 (a.x2 - a.x1) := le_max_left _ _
    exact mul_le_mul hx hy h2 h3
  area_mkBox := by
    intro x1 y1 x2 y2 hx hy
    have hx0 : (0 : ℚ) ≤ x2 - x1 := by linarith
    have hy0 : (0 : ℚ) ≤ y2 - y1 := by linarith
    simp [Box.area, max_eq_right hx0, max_eq_right hy0]
  withinPt_inter := by
    intro p a b h
    simp only [Box.inter, Box.withinPt, decide_eq_true_eq, max_lt_iff, lt_min_iff] at h
    simp only [Box.withinPt, decide_eq_true_eq]
    exact ⟨⟨h.1.1, h.2.1.1, h.2.2.1.1, h.2.2.2.1⟩, ⟨h.1.2, h.2.1.2, h.2.2.1.2, h.2.2.2.2⟩⟩
  withinPt_mkBox := by
    intro p x1 y1 x2 y2
    simp [Box.withinPt]

theorem stepCount_pos_iff (lo hi s : ℚ) (hs : 0 < s) (i : ℕ) :
    i < stepCount lo hi s ↔ lo + i * s < hi := by
  rw [stepCount, Nat.lt_ceil, lt_div_iff₀ hs]
  constructor
  · intro h; linarith
  · intro h; linarith

theorem stepCount_self (lo s : ℚ) : stepCount lo lo s = 0 := by
  simp [stepCount]

theorem loopTerminates_of_pos (lo hi s : ℚ) (hs : 0 < s) : loopTerminates lo hi s := by
  refine ⟨stepCount lo hi s, ?_⟩
  have h1 : (hi - lo) / s ≤ (stepCount lo hi s : ℚ) := Nat.le_ceil _
  have h2 : hi - lo ≤ (stepCount lo hi s : ℚ) * s := by
    rw [div_le_iff₀ hs] at h1
    exact h1
  linarith

theorem mem_colOrigins (x lo s : ℚ) (n : ℕ) (o : ℚ × ℚ) :
    o ∈ colOrigins x lo s n ↔ ∃ j : ℕ, j < n ∧ o = (x, lo + j * s) := by
  induction n generalizing lo with
  | zero => simp [colOrigins]
  | succ n ih =>
    simp only [colOrigins, List.mem_cons, ih]
    constructor
    · rintro (rfl | ⟨j, hj, rfl⟩)
      · exact ⟨0, Nat.succ_pos _, by simp⟩
      · refine ⟨j + 1, by omega, ?_⟩
        have : lo + s + (j : ℚ) * s = lo + ((j : ℕ) + 1 : ℕ) * s := by push_cast; ring
        rw [this]
    · rintro ⟨j, hj, rfl⟩
      cases j with
      | zero => left; simp
      | succ j =>
        right
        refine ⟨j, by omega, ?_⟩
        have : lo + ((j : ℕ) + 1 : ℕ) * s = lo + s + (j : ℚ) * s := by push_cast; ring
        rw [this]

theorem mem_rowsOrigins (lo miny s : ℚ) (ny n : ℕ) (o : ℚ × ℚ) :
    o ∈ rowsOrigins lo miny s ny n ↔
      ∃ i j : ℕ, i < n ∧ j < ny ∧ o = (lo + i * s, miny + j * s) := by
  induction n generalizing lo with
  | zero => simp [rowsOrigins]
  | succ n ih =>
    simp only [rowsOrigins, List.mem_append, ih, mem_colOrigins]
    constructor
    · rintro (⟨j, hj, rfl⟩ | ⟨i, j, hi, hj, rfl⟩)
      · exact ⟨0, j, Nat.succ_pos _, hj, by simp⟩
      · refine ⟨i + 1, j, by omega, hj, ?_⟩
        have : lo + s + (i : ℚ) * s = lo + ((i : ℕ) + 1 : ℕ) * s := by push_cast; ring
        rw [this]
    · rintro ⟨i, j, hi, hj, rfl⟩
      cases i with
      | zero => left; exact ⟨j, hj, by simp⟩
      | succ i =>
        right
        refine ⟨i, j, by omega, hj, ?_⟩
        have : lo + ((i : ℕ) + 1 : ℕ) * s = lo + s + (i : ℚ) * s := by push_cast; ring
        rw [this]

theorem mem_tileOrigins (minx miny maxx maxy s : ℚ) (hs : 0 < s) (i j : ℕ) :
    (minx + i * s, miny + j * s) ∈ tileOrigins minx miny maxx maxy s ↔
      (minx + i * s < maxx ∧ miny + j * s < maxy) := by
  rw [tileOrigins, mem_rowsOrigins]
  constructor
  · rintro ⟨i1, j1, hi1, hj1, heq⟩
    have hx : minx + (i : ℚ) * s = minx + (i1 : ℚ) * s := congrArg Prod.fst heq
    have hy : miny + (j : ℚ) * s = miny + (j1 : ℚ) * s := congrArg Prod.snd heq
    have hii : (i : ℚ) = (i1 : ℚ) := by
      have := mul_right_cancel₀ (ne_of_gt hs) (by linarith : (i : ℚ) * s = (i1 : ℚ) * s)
      exact this
    have hjj : (j : ℚ) = (j1 : ℚ) := by
      have := mul_right_cancel₀ (ne_of_gt hs) (by linarith : (j : ℚ) * s = (j1 : ℚ) * s)
      exact this
    have hi2 : i = i1 := Nat.cast_injective hii
    have hj2 : j = j1 := Nat.cast_injective hjj
    subst hi2; subst hj2
    exact ⟨(stepCount_pos_iff minx maxx s hs i).mp hi1,
      (stepCount_pos_iff miny maxy s hs j).mp hj1⟩
  · rintro ⟨hx, hy⟩
    exact ⟨i, j, (stepCount_pos_iff minx maxx s hs i).mpr hx,
      (stepCount_pos_iff miny maxy s hs j).mpr hy, rfl⟩

theorem rowsOrigins_ny_zero (lo miny s : ℚ) (n : ℕ) :
    rowsOrigins lo miny s 0 n = [] := by
  induction n generalizing lo with
  | zero => rfl
  | succ n ih => simp [rowsOrigins, colOrigins, ih]

theorem withIds_fields {G : Type} (ops : GeomOps G) (s : ℚ) (start : ℕ)
    (gs : List G) (c : GridCell G) (hc : c ∈ withIds ops s start gs) :
    c.geometry ∈ gs ∧ c.area_km2 = ops.area c.geometry / 1000000 ∧
      c.cell_area_km2_full = s * s / 1000000 := by
  induction gs generalizing start with
  | nil => cases hc
  | cons g gs ih =>
    rcases List.mem_cons.mp hc with rfl | h
    · exact ⟨List.mem_cons_self _ _, rfl, rfl⟩
    · obtain ⟨h1, h2, h3⟩ := ih (start + 1) h
      exact ⟨List.mem_cons_of_mem _ h1, h2, h3⟩

theorem withIds_map_cell_id {G : Type} (ops : GeomOps G) (s : ℚ) (start : ℕ)
    (gs : List G) :
    (withIds ops s start gs).map GridCell.cell_id = List.range' start gs.length := by
  induction gs generalizing start with
  | nil => rfl
  | cons g gs ih => simp [withIds, cellOfGeom, List.range'_succ, ih]

theorem withIds_pairwise {G : Type} (ops : GeomOps G) (s : ℚ) (start : ℕ)
    (gs : List G) (R : G → G → Prop) (h : List.Pairwise R gs) :
    List.Pairwise (fun c d : GridCell G => R c.geometry d.geometry)
      (withIds ops s start gs) := by
  induction gs generalizing start with
  | nil => exact List.Pairwise.nil
  | cons g gs ih =>
    rcases List.pairwise_cons.mp h with ⟨hg, hgs⟩
    refine List.pairwise_cons.mpr ⟨?_, ih (start + 1) hgs⟩
    intro d hd
    exact hg d.geometry (withIds_fields ops s (start + 1) gs d hd).1

/-- The geometry of every cell of `make_square_grid` is the boundary
clipped against one of the tiling squares, and the recorded columns are
the ones lines 80-83 assign; only positive clipped areas survive the
filter of line 83. -/
theorem mem_make_square_grid {G : Type} (ops : GeomOps G) (bnd : G) (s : ℚ)
    (c : GridCell G) (hc : c ∈ make_square_grid ops bnd s) :
    ∃ o ∈ tileOrigins (ops.bounds bnd).minx (ops.bounds bnd).miny
        (ops.bounds bnd).maxx (ops.bounds bnd).maxy s,
      c.geometry = ops.inter (ops.mkBox o.1 o.2 (o.1 + s) (o.2 + s)) bnd ∧
        0 < ops.area c.geometry / 1000000 ∧
        c.area_km2 = ops.area c.geometry / 1000000 ∧
        c.cell_area_km2_full = s * s / 1000000 := by
  obtain ⟨hmem, harea, hfull⟩ := withIds_fields ops s 0 _ c hc
  rcases List.mem_filter.mp hmem with ⟨hmem2, hpos⟩
  rcases List.mem_map.mp hmem2 with ⟨sq, hsq, hinter⟩
  rcases List.mem_map.mp hsq with ⟨o, ho, hbox⟩
  refine ⟨o, ho, ?_, ?_, harea, hfull⟩
  · rw [← hinter, ← hbox]
  · exact of_decide_eq_true hpos

/-- The point `p` lies in the open interior of the square of side `s`
with origin `o`. -/
def insideTile (p o : ℚ × ℚ) (s : ℚ) : Prop :=
  o.1 < p.1 ∧ p.1 < o.1 + s ∧ o.2 < p.2 ∧ p.2 < o.2 + s

theorem colOrigins_insideTile_pairwise (p : ℚ × ℚ) (x lo s : ℚ) (hs : 0 < s) (n : ℕ) :
    List.Pairwise (fun o o2 => ¬(insideTile p o s ∧ insideTile p o2 s))
      (colOrigins x lo s n) := by
  induction n generalizing lo with
  | zero => exact List.Pairwise.nil
  | succ n ih =>
    refine List.pairwise_cons.mpr ⟨?_, ih (lo + s)⟩
    intro o2 ho2
    rcases (mem_colOrigins x (lo + s) s n o2).mp ho2 with ⟨j, hj, rfl⟩
    rintro ⟨h1, h2⟩
    rcases h1 with ⟨-, -, -, hlt⟩
    rcases h2 with ⟨-, -, hgt, -⟩
    simp only at hlt hgt
    have : (0 : ℚ) ≤ (j : ℚ) * s := mul_nonneg (Nat.cast_nonneg j) (le_of_lt hs)
    linarith

theorem rowsOrigins_insideTile_pairwise (p : ℚ × ℚ) (lo miny s : ℚ) (hs : 0 < s)
    (ny n : ℕ) :
    List.Pairwise (fun o o2 => ¬(insideTile p o s ∧ insideTile p o2 s))
      (rowsOrigins lo miny s ny n) := by
  induction n generalizing lo with
  | zero => exact List.Pairwise.nil
  | succ n ih =>
    rw [rowsOrigins, List.pairwise_append]
    refine ⟨colOrigins_insideTile_pairwise p lo miny s hs ny, ih (lo + s), ?_⟩
    intro a ha b hb
    rcases (mem_colOrigins lo miny s ny a).mp ha with ⟨j, hj, rfl⟩
    rcases (mem_rowsOrigins (lo + s) miny s ny n b).mp hb with ⟨i2, j2, hi2, hj2, rfl⟩
    rintro ⟨h1, h2⟩
    rcases h1 with ⟨-, hlt, -, -⟩
    rcases h2 with ⟨hgt, -, -, -⟩
    simp only at hlt hgt
    have : (0 : ℚ) ≤ (i2 : ℚ) * s := mul_nonneg (Nat.cast_nonneg i2) (le_of_lt hs)
    linarith

theorem countP_le_one_of_pairwise {α : Type} (l : List α) (Q : α → Bool)
    (h : List.Pairwise (fun a b => ¬(Q a = true ∧ Q b = true)) l) :
    l.countP Q ≤ 1 := by
  induction l with
  | nil => simp
  | cons a l ih =>
    rcases List.pairwise_cons.mp h with ⟨ha, hl⟩
    rw [List.countP_cons]
    by_cases hQ : Q a = true
    · have hzero : l.countP Q = 0 := by
        rw [List.countP_eq_zero]
        intro b hb hQb
        exact ha b hb ⟨hQ, hQb⟩
      simp [hzero, hQ]
    · simp only [hQ, if_false]
      simpa using ih hl

theorem sum_map_add_nat {α : Type} (l : List α) (f g : α → ℕ) :
    (l.map (fun a => f a + g a)).sum = (l.map f).sum + (l.map g).sum := by
  induction l with
  | nil => rfl
  | cons a l ih => simp [ih]; omega

theorem sum_map_ite_eq_countP {α : Type} (l : List α) (Q : α → Bool) :
    (l.map (fun a => if Q a then 1 else 0)).sum = l.countP Q := by
  induction l with
  | nil => rfl
  | cons a l ih =>
    rw [List.map_cons, List.sum_cons, List.countP_cons, ih]
    by_cases hQ : Q a = true
    · simp [hQ]
      omega
    · simp [hQ]

/-- If every point lies (under the join predicate) in at most one cell of
the grid, then the per-cell counts sum to at most the number of points. -/
theorem sum_counts_le_length {G : Type} (grid : List (GridCell G))
    (w : ℚ × ℚ → G → Bool) (pois : List (ℚ × ℚ))
    (hdisj : ∀ p : ℚ × ℚ, grid.countP (fun c => w p c.geometry) ≤ 1) :
    (grid.map (fun c => (pois.filter (fun p => w p c.geometry)).length)).sum ≤
      pois.length := by
  induction pois with
  | nil => simp
  | cons p ps ih =>
    have hsplit : ∀ c : GridCell G,
        ((p :: ps).filter (fun q => w q c.geometry)).length =
          (if w p c.geometry then 1 else 0) +
            (ps.filter (fun q => w q c.geometry)).length := by
      intro c
      by_cases h : w p c.geometry = true
      · simp [List.filter_cons, h]
        omega
      · simp [List.filter_cons, h]
    calc (grid.map (fun c => ((p :: ps).filter (fun q => w q c.geometry)).length)).sum
        = (grid.map (fun c => (if w p c.geometry then 1 else 0) +
            (ps.filter (fun q => w q c.geometry)).length)).sum := by
          exact congrArg List.sum (List.map_congr_left (fun c _ => hsplit c))
      _ = (grid.map (fun c => if w p c.geometry then 1 else 0)).sum +
            (grid.map (fun c => (ps.filter (fun q => w q c.geometry)).length)).sum :=
          sum_map_add_nat grid _ _
      _ ≤ 1 + ps.length := by
          have h1 : (grid.map (fun c => if w p c.geometry then 1 else 0)).sum ≤ 1 := by
            rw [sum_map_ite_eq_countP]
            exact hdisj p
          exact Nat.add_le_add h1 ih
      _ = (p :: ps).length := by simp [Nat.add_comm]

/-- In a grid built by `make_square_grid`, any point is `within` at most
one cell: distinct surviving cells come from distinct tiling squares,
whose interiors are disjoint, and `within` against the clipped geometry
implies `within` the square. -/
theorem make_square_grid_within_le_one {G : Type} (ops : GeomOps G) (bnd : G)
    (s : ℚ) (hs : 0 < s) (p : ℚ × ℚ) :
    (make_square_grid ops bnd s).countP
      (fun c => ops.withinPt p c.geometry) ≤ 1 := by
  apply countP_le_one_of_pairwise
  have horig := rowsOrigins_insideTile_pairwise p (ops.bounds bnd).minx
    (ops.bounds bnd).miny s hs (stepCount (ops.bounds bnd).miny (ops.bounds bnd).maxy s)
    (stepCount (ops.bounds bnd).minx (ops.bounds bnd).maxx s)
  rw [make_square_grid]
  rw [List.map_map]
  have hclip := horig.map
    (fun o => ops.inter (ops.mkBox o.1 o.2 (o.1 + s) (o.2 + s)) bnd)
    (S := fun g h => ¬(ops.withinPt p g = true ∧ ops.withinPt p h = true))
    (by
      intro o o2 hno ⟨hw1, hw2⟩
      apply hno
      constructor
      · exact (ops.withinPt_mkBox p _ _ _ _).mp (ops.withinPt_inter p _ _ hw1).1
      · exact (ops.withinPt_mkBox p _ _ _ _).mp (ops.withinPt_inter p _ _ hw2).1)
  have hkept := hclip.filter (fun g => decide (0 < ops.area g / 1000000))
  exact withIds_pairwise ops s 0 _ _ hkept

/-- C8: the classifier scans the candidate keys in priority order and for
the first key with a non-null value returns `"key:value"`, or just `"key"`
for a boolean `True` tag; with no non-null candidate it returns the
literal `"unknown"`.  It is total by construction, and is exactly the
function applied by both `categorize_pois` and `classify_landuse`. -/
theorem classifier_first_nonnull_key (row : String → TagValue) (ks : List String) :
    ((∀ k ∈ ks, (row k).notna = false) → pick ks row = "unknown") ∧
    (∀ ks1 k ks2, ks = ks1 ++ k :: ks2 → (∀ k1 ∈ ks1, (row k1).notna = false) →
      (row k).notna = true →
      pick ks row =
        if row k = TagValue.boolTrue then k else k ++ ":" ++ (row k).render) ∧
    categorize_pois_row row = pick preferredPoiKeys row ∧
    classify_landuse_row row = pick preferredLanduseKeys row := by
  refine ⟨?_, ?_, rfl, rfl⟩
  · intro hall
    induction ks with
    | nil => rfl
    | cons k ks ih =>
      have hk : (row k).notna = false := hall k (List.mem_cons_self _ _)
      rw [pick, hk]
      simp only [Bool.false_eq_true, if_false]
      exact ih (fun k1 h1 => hall k1 (List.mem_cons_of_mem _ h1))
  · intro ks1 k ks2 hks hnull hk
    subst hks
    induction ks1 with
    | nil =>
      rw [List.nil_append, pick, hk]
      simp
    | cons k1 ks1 ih =>
      have h1 : (row k1).notna = false := hnull k1 (List.mem_cons_self _ _)
      rw [List.cons_append, pick, h1]
      simp only [Bool.false_eq_true, if_false]
      exact ih (fun k2 h2 => hnull k2 (List.mem_cons_of_mem _ h2))

/-- Witness for C8 at concrete inputs: a feature tagged
`amenity=school` is labelled `"amenity:school"`; a feature with a boolean
`landuse=True` tag is labelled `"landuse"`; a feature with no candidate
tag is labelled `"unknown"`. -/
theorem classifier_first_nonnull_key_witness :
    pick preferredPoiKeys
        (fun k => if k = "amenity" then TagValue.str "school" else TagValue.null) =
      "amenity:school" ∧
    pick preferredLanduseKeys
        (fun k => if k = "landuse" then TagValue.boolTrue else TagValue.null) =
      "landuse" ∧
    pick preferredPoiKeys (fun _ => TagValue.null) = "unknown" := by
  refine ⟨?_, ?_, ?_⟩
  · have h := (classifier_first_nonnull_key
      (fun k => if k = "amenity" then TagValue.str "school" else TagValue.null)
      preferredPoiKeys).2.1 [] "amenity" ["leisure"] rfl (by simp) (by simp [TagValue.notna])
    simpa [TagValue.render] using h
  · have h := (classifier_first_nonnull_key
      (fun k => if k = "landuse" then TagValue.boolTrue else TagValue.null)
      preferredLanduseKeys).2.1 [] "landuse" ["natural", "leisure", "landcover"]
      rfl (by simp) (by simp [TagValue.notna])
    simpa using h
  · exact (classifier_first_nonnull_key (fun _ => TagValue.null) preferredPoiKeys).1
      (by intro k hk; rfl)

/-- C3 is false as stated: with `cell_size_m = 0` and a bounding box of
positive width, the tiling loop `x = minx; while x < maxx: x += 0` of
`make_square_grid` never terminates (no iterate ever reaches `maxx`), so
the function does not return an empty grid there. -/
theorem zero_cell_size_loop_diverges : ¬ loopTerminates 0 1 0 := by
  rintro ⟨n, h⟩
  rw [mul_zero, add_zero] at h
  exact absurd h (by norm_num)

/-- C3 (amended): for every positive cell size the tiling loops of
`make_square_grid` terminate, and a degenerate boundary whose bounding
box has zero width or zero height yields the empty grid without an
error; but for `cell_size_m = 0` with a non-degenerate bounding box the
loop does not terminate (it never crashes into an empty grid, it hangs). -/
theorem grid_termination_and_degenerate_bounds {G : Type} (ops : GeomOps G)
    (bnd : G) (s lo hi : ℚ) :
    (0 < s → loopTerminates lo hi s) ∧
    (lo < hi → ¬ loopTerminates lo hi 0) ∧
    ((ops.bounds bnd).maxx = (ops.bounds bnd).minx ∨
        (ops.bounds bnd).maxy = (ops.bounds bnd).miny →
      make_square_grid ops bnd s = []) := by
  refine ⟨fun hs => loopTerminates_of_pos lo hi s hs, ?_, ?_⟩
  · rintro hlt ⟨n, h⟩
    rw [mul_zero, add_zero] at h
    exact absurd (lt_of_lt_of_le hlt h) (lt_irrefl lo)
  · intro hdeg
    have htiles : tileOrigins (ops.bounds bnd).minx (ops.bounds bnd).miny
        (ops.bounds bnd).maxx (ops.bounds bnd).maxy s = [] := by
      rcases hdeg with h | h
      · rw [tileOrigins, h, stepCount_self]
        rfl
      · rw [tileOrigins, h, stepCount_self, rowsOrigins_ny_zero]
    rw [make_square_grid]
    rw [htiles]
    rfl

/-- Witness for C3 (amended) at concrete inputs: the loop from 0 to 1
with step 1/2 terminates, the loop from 0 to 1 with step 0 does not, and
a boundary with zero-width bounds produces the empty grid. -/
theorem grid_termination_and_degenerate_bounds_witness :
    loopTerminates 0 1 (1/2) ∧ ¬ loopTerminates 0 1 0 ∧
      make_square_grid boxOps ⟨0, 0, 0, 5⟩ 3 = [] :=
  ⟨(grid_termination_and_degenerate_bounds boxOps (⟨0, 0, 0, 5⟩ : Box) (1/2) 0 1).1
      (by norm_num),
   (grid_termination_and_degenerate_bounds boxOps (⟨0, 0, 0, 5⟩ : Box) 3 0 1).2.1
      (by norm_num),
   (grid_termination_and_degenerate_bounds boxOps (⟨0, 0, 0, 5⟩ : Box) 3 0 1).2.2
      (Or.inl rfl)⟩

/-- C4: in the grid returned by `make_square_grid` every cell has
`0 < area_km2 ≤ cell_area_km2_full`: cells whose clipped area is zero are
filtered out, and the clipped area never exceeds the full square area. -/
theorem grid_cell_area_invariant {G : Type} (ops : GeomOps G) (bnd : G) (s : ℚ)
    (hs : 0 < s) :
    ∀ c ∈ make_square_grid ops bnd s,
      0 < c.area_km2 ∧ c.area_km2 ≤ c.cell_area_km2_full := by
  intro c hc
  obtain ⟨o, ho, hgeom, hpos, harea, hfull⟩ := mem_make_square_grid ops bnd s c hc
  refine ⟨by rw [harea]; exact hpos, ?_⟩
  rw [harea, hfull]
  have h1 : ops.area c.geometry ≤ ops.area (ops.mkBox o.1 o.2 (o.1 + s) (o.2 + s)) := by
    rw [hgeom]
    exact ops.area_inter_le _ _
  have h2 : ops.area (ops.mkBox o.1 o.2 (o.1 + s) (o.2 + s)) = s * s := by
    rw [ops.area_mkBox _ _ _ _ (by linarith) (by linarith)]
    ring
  rw [h2] at h1
  linarith

/-- Witness for C4 at a concrete input: the unit-square boundary with
cell size 1 produces a one-cell grid, and that cell satisfies the area
invariant. -/
theorem grid_cell_area_invariant_witness :
    (make_square_grid boxOps ⟨0, 0, 1, 1⟩ 1).length = 1 ∧
      (∀ c ∈ make_square_grid boxOps ⟨0, 0, 1, 1⟩ 1,
        0 < c.area_km2 ∧ c.area_km2 ≤ c.cell_area_km2_full) :=
  ⟨by norm_num [make_square_grid, tileOrigins, stepCount, rowsOrigins, colOrigins,
      withIds, cellOfGeom, boxOps, Box.inter, Box.area, List.filter],
   grid_cell_area_invariant boxOps ⟨0, 0, 1, 1⟩ 1 (by norm_num)⟩

theorem withIds_length {G : Type} (ops : GeomOps G) (s : ℚ) (start : ℕ)
    (gs : List G) : (withIds ops s start gs).length = gs.length := by
  induction gs generalizing start with
  | nil => rfl
  | cons g gs ih => simp [withIds, ih]

/-- C7: for positive cell size the tiling squares are exactly those with
origin `(minx + i*s, miny + j*s)`, `i, j ≥ 0`, whose origin is strictly
below the corresponding max bound (squares may overhang the high edges),
and after discarding empty cells `cell_id` is the 0-based rank in
iteration order, so the ids are exactly `0 .. n-1`. -/
theorem tiling_origins_and_cell_ids {G : Type} (ops : GeomOps G) (bnd : G)
    (s : ℚ) (hs : 0 < s) :
    (∀ i j : ℕ,
      ((ops.bounds bnd).minx + i * s, (ops.bounds bnd).miny + j * s) ∈
          tileOrigins (ops.bounds bnd).minx (ops.bounds bnd).miny
            (ops.bounds bnd).maxx (ops.bounds bnd).maxy s ↔
        ((ops.bounds bnd).minx + i * s < (ops.bounds bnd).maxx ∧
          (ops.bounds bnd).miny + j * s < (ops.bounds bnd).maxy)) ∧
    (make_square_grid ops bnd s).map GridCell.cell_id =
      List.range (make_square_grid ops bnd s).length := by
  constructor
  · intro i j
    exact mem_tileOrigins (ops.bounds bnd).minx (ops.bounds bnd).miny
      (ops.bounds bnd).maxx (ops.bounds bnd).maxy s hs i j
  · rw [make_square_grid]
    rw [withIds_map_cell_id, withIds_length, List.range_eq_range']

/-- Witness for C7 at a concrete input: the unit-square boundary with
cell size 1. -/
theorem tiling_origins_and_cell_ids_witness :
    (((0 : ℚ) + 0 * 1, (0 : ℚ) + 0 * 1) ∈ tileOrigins 0 0 1 1 1 ↔
      ((0 : ℚ) + 0 * 1 < 1 ∧ (0 : ℚ) + 0 * 1 < 1)) ∧
    (make_square_grid boxOps ⟨0, 0, 1, 1⟩ 1).map GridCell.cell_id =
      List.range (make_square_grid boxOps ⟨0, 0, 1, 1⟩ 1).length :=
  ⟨(tiling_origins_and_cell_ids boxOps ⟨0, 0, 1, 1⟩ 1 (by norm_num)).1 0 0,
   (tiling_origins_and_cell_ids boxOps ⟨0, 0, 1, 1⟩ 1 (by norm_num)).2⟩

/-- C6: in a grid built by `make_square_grid`, every point is `within` at
most one cell under the strict containment predicate of the spatial
join, and consequently the `count` column of `aggregate_pois_to_grid`
sums to at most the number of input points. -/
theorem poi_at_most_one_cell_and_count_bound {G : Type} (ops : GeomOps G)
    (bnd : G) (s : ℚ) (hs : 0 < s) (pois : List (ℚ × ℚ)) :
    (∀ p : ℚ × ℚ, (make_square_grid ops bnd s).countP
        (fun c => ops.withinPt p c.geometry) ≤ 1) ∧
    ((aggregate_pois_to_grid ops pois (make_square_grid ops bnd s)).map
        POIRow.count).sum ≤ pois.length := by
  refine ⟨make_square_grid_within_le_one ops bnd s hs, ?_⟩
  rw [aggregate_pois_to_grid]
  by_cases hempty : (pois.isEmpty || (make_square_grid ops bnd s).isEmpty) = true
  · rw [if_pos hempty]
    simp
  · rw [if_neg hempty, List.map_map]
    exact sum_counts_le_length (make_square_grid ops bnd s) ops.withinPt pois
      (make_square_grid_within_le_one ops bnd s hs)

/-- Witness for C6 at a concrete input: three points, two of them inside
the single cell of the unit grid and one outside. -/
theorem poi_at_most_one_cell_and_count_bound_witness :
    (∀ p : ℚ × ℚ, (make_square_grid boxOps ⟨0, 0, 1, 1⟩ 1).countP
        (fun c => boxOps.withinPt p c.geometry) ≤ 1) ∧
    ((aggregate_pois_to_grid boxOps [(1/2, 1/2), (1/2, 1/3), (2, 2)]
        (make_square_grid boxOps ⟨0, 0, 1, 1⟩ 1)).map POIRow.count).sum ≤ 3 :=
  poi_at_most_one_cell_and_count_bound boxOps ⟨0, 0, 1, 1⟩ 1 (by norm_num)
    [(1/2, 1/2), (1/2, 1/3), (2, 2)]

theorem aggregate_buildings_cell_mem {G : Type} (ops : GeomOps G)
    (bs : List (Building G)) (grid : List (GridCell G)) (hf : Bool)
    (row : BuildingRow G) (h : row ∈ aggregate_buildings_to_grid ops bs grid hf) :
    row.cell ∈ grid := by
  rw [aggregate_buildings_to_grid] at h
  by_cases hempty : (bs.isEmpty || grid.isEmpty) = true
  · rw [if_pos hempty] at h
    rcases List.mem_map.mp h with ⟨c, hc, rfl⟩
    exact hc
  · rw [if_neg hempty] at h
    rcases List.mem_map.mp h with ⟨c, hc, rfl⟩
    exact hc

theorem aggregate_pois_cell_mem {G : Type} (ops : GeomOps G)
    (pois : List (ℚ × ℚ)) (grid : List (GridCell G))
    (row : POIRow G) (h : row ∈ aggregate_pois_to_grid ops pois grid) :
    row.cell ∈ grid := by
  rw [aggregate_pois_to_grid] at h
  by_cases hempty : (pois.isEmpty || grid.isEmpty) = true
  · rw [if_pos hempty] at h
    cases h
  · rw [if_neg hempty] at h
    rcases List.mem_map.mp h with ⟨c, hc, rfl⟩
    exact hc

/-- C5: when the cells of the grid are pairwise `within`-disjoint (as the
cells of `make_square_grid` are), a single building whose centroid is
`within` cell `A` is counted once with its full footprint area on the row
of the cell containing its centroid, and every cell not containing the
centroid — including cells its footprint overlaps — keeps zero building
count and area; overall exactly one cell receives the building. -/
theorem building_centroid_assignment {G : Type} (ops : GeomOps G)
    (b : Building G) (grid : List (GridCell G)) (hf : Bool)
    (hdisj : List.Pairwise (fun c d => ∀ q : ℚ × ℚ,
      ¬(ops.withinPt q c.geometry = true ∧ ops.withinPt q d.geometry = true)) grid)
    (A : GridCell G) (hA : A ∈ grid)
    (hin : ops.withinPt (ops.centroid b.geom) A.geometry = true) :
    (∀ row ∈ aggregate_buildings_to_grid ops [b] grid hf,
      row.building_count =
          (if ops.withinPt (ops.centroid b.geom) row.cell.geometry then 1 else 0) ∧
        row.building_area_km2 =
          (if ops.withinPt (ops.centroid b.geom) row.cell.geometry
            then ops.area b.geom / 1000000 else 0)) ∧
    ((aggregate_buildings_to_grid ops [b] grid hf).map
        BuildingRow.building_count).sum = 1 := by
  have hgridne : grid.isEmpty = false := by
    cases grid with
    | nil => cases hA
    | cons c cs => rfl
  have hcond : (([b] : List (Building G)).isEmpty || grid.isEmpty) = false := by
    rw [hgridne]
    rfl
  constructor
  · intro row hrow
    rw [aggregate_buildings_to_grid, hcond] at hrow
    simp only [Bool.false_eq_true, if_false] at hrow
    rcases List.mem_map.mp hrow with ⟨c, hc, rfl⟩
    by_cases hw : ops.withinPt (ops.centroid b.geom) c.geometry = true
    · simp [List.filter_singleton, hw]
    · simp [List.filter_singleton, hw]
  · rw [aggregate_buildings_to_grid, hcond]
    simp only [Bool.false_eq_true, if_false]
    rw [List.map_map]
    have hcongr : grid.map (BuildingRow.building_count ∘ fun c =>
        ({ cell := c
           building_count := (([b].filter
             (fun b2 => ops.withinPt (ops.centroid b2.geom) c.geometry)).length)
           building_area_km2 := (([b].filter
             (fun b2 => ops.withinPt (ops.centroid b2.geom) c.geometry)).map
               (fun b2 => ops.area b2.geom / 1000000)).sum
           building_density := PFloat.fillna0 (if bDenom hf c = 0 then PFloat.nan
             else PFloat.pdiv ((([b].filter (fun b2 =>
               ops.withinPt (ops.centroid b2.geom) c.geometry)).length : ℚ)) (bDenom hf c))
           footprint_coverage := PFloat.fillna0 (PFloat.mul100 (PFloat.pdiv
             ((([b].filter (fun b2 => ops.withinPt (ops.centroid b2.geom) c.geometry)).map
               (fun b2 => ops.area b2.geom / 1000000)).sum) (bDenom hf c))) } : BuildingRow G)) =
        grid.map (fun c =>
          if ops.withinPt (ops.centroid b.geom) c.geometry then 1 else 0) := by
      apply List.map_congr_left
      intro c _
      by_cases hw : ops.withinPt (ops.centroid b.geom) c.geometry = true
      · simp [List.filter_singleton, hw]
      · simp [List.filter_singleton, hw]
    rw [hcongr, sum_map_ite_eq_countP]
    have hle : grid.countP
        (fun c => ops.withinPt (ops.centroid b.geom) c.geometry) ≤ 1 :=
      countP_le_one_of_pairwise grid _
        (hdisj.imp (fun h => fun hq => h (ops.centroid b.geom) hq))
    have hpos : 0 < grid.countP
        (fun c => ops.withinPt (ops.centroid b.geom) c.geometry) :=
      List.countP_pos_iff.mpr ⟨A, hA, hin⟩
    omega

/-- Witness for C5 at a concrete input: two adjacent unit cells, one
building whose footprint spans both but whose centroid `(7/8, 1/2)` lies
in the left cell: the left cell receives count 1 and the full footprint
area, the right cell stays at zero, and exactly one cell receives the
building. -/
theorem building_centroid_assignment_witness :
    (∀ row ∈ aggregate_buildings_to_grid boxOps [⟨⟨1/4, 1/4, 3/2, 3/4⟩⟩]
        [⟨⟨0, 0, 1, 1⟩, 1/1000000, 1/1000000, 1, 0⟩,
         ⟨⟨1, 0, 2, 1⟩, 1/1000000, 1/1000000, 1, 1⟩] true,
      row.building_count =
          (if boxOps.withinPt (boxOps.centroid (⟨1/4, 1/4, 3/2, 3/4⟩ : Box))
            row.cell.geometry then 1 else 0) ∧
        row.building_area_km2 =
          (if boxOps.withinPt (boxOps.centroid (⟨1/4, 1/4, 3/2, 3/4⟩ : Box))
            row.cell.geometry then boxOps.area (⟨1/4, 1/4, 3/2, 3/4⟩ : Box) / 1000000
            else 0)) ∧
    ((aggregate_buildings_to_grid boxOps [⟨⟨1/4, 1/4, 3/2, 3/4⟩⟩]
        [⟨⟨0, 0, 1, 1⟩, 1/1000000, 1/1000000, 1, 0⟩,
         ⟨⟨1, 0, 2, 1⟩, 1/1000000, 1/1000000, 1, 1⟩] true).map
        BuildingRow.building_count).sum = 1 :=
  building_centroid_assignment boxOps ⟨⟨1/4, 1/4, 3/2, 3/4⟩⟩
    [⟨⟨0, 0, 1, 1⟩, 1/1000000, 1/1000000, 1, 0⟩,
     ⟨⟨1, 0, 2, 1⟩, 1/1000000, 1/1000000, 1, 1⟩] true
    (by
      refine List.pairwise_cons.mpr ⟨?_, List.pairwise_singleton _ _⟩
      intro d hd q
      rcases List.mem_singleton.mp hd with rfl
      rintro ⟨h1, h2⟩
      simp only [boxOps, Box.withinPt, decide_eq_true_eq] at h1 h2
      rcases h1 with ⟨-, hlt, -, -⟩
      rcases h2 with ⟨hgt, -, -, -⟩
      exact absurd (lt_trans hgt hlt) (lt_irrefl _))
    ⟨⟨0, 0, 1, 1⟩, 1/1000000, 1/1000000, 1, 0⟩
    (List.mem_cons_self _ _)
    (by norm_num [boxOps, Box.withinPt, Box.centroid])

/-- C9: when the grid lacks the `cell_area_km2_full` column,
`aggregate_buildings_to_grid` divides by the clipped per-cell `area_km2`
instead: its indicator columns coincide with those obtained on a grid
whose full-cell-area column has been overwritten with the clipped area
and the column flag set. -/
theorem building_denominator_fallback {G : Type} (ops : GeomOps G)
    (bs : List (Building G)) (grid : List (GridCell G)) :
    (aggregate_buildings_to_grid ops bs grid false).map
        (fun r => (r.building_count, r.building_area_km2, r.building_density,
          r.footprint_coverage)) =
      (aggregate_buildings_to_grid ops bs
          (grid.map (fun c => { c with cell_area_km2_full := c.area_km2 })) true).map
        (fun r => (r.building_count, r.building_area_km2, r.building_density,
          r.footprint_coverage)) := by
  have hemp : (grid.map (fun c : GridCell G =>
      { c with cell_area_km2_full := c.area_km2 })).isEmpty = grid.isEmpty := by
    cases grid with
    | nil => rfl
    | cons c cs => rfl
  rw [aggregate_buildings_to_grid, aggregate_buildings_to_grid, hemp]
  by_cases hcond : (bs.isEmpty || grid.isEmpty) = true
  · rw [if_pos hcond, if_pos hcond]
    rw [List.map_map, List.map_map, List.map_map]
    rfl
  · rw [if_neg hcond, if_neg hcond]
    rw [List.map_map, List.map_map, List.map_map]
    apply List.map_congr_left
    intro c _
    simp only [Function.comp]
    rfl

/-- C2 is false as stated: line 104 of `indicators.py` divides `count`
by `cell_area_km2_full` with no divide-by-zero guard, so on a grid cell
whose full-cell area is zero and which contains one point the
`density_per_km2` column is +inf — not a representable finite number and
not 0. -/
theorem poi_density_inf_on_zero_denominator :
    (aggregate_pois_to_grid boxOps [(1/2, 1/2)]
        [⟨⟨0, 0, 1, 1⟩, 1/1000000, 0, 0, 0⟩]).map POIRow.density_per_km2 =
      [PFloat.inf] ∧
    PFloat.inf.isFinite = false ∧ PFloat.inf ≠ PFloat.val 0 := by
  refine ⟨?_, rfl, by simp⟩
  norm_num [aggregate_pois_to_grid, boxOps, Box.withinPt, List.filter,
    PFloat.pdiv]

/-- C2 (amended): `building_density` is always a finite number and equals
0 whenever its denominator is zero (the `replace(0, nan)` + `fillna(0)`
guard), and `density_per_km2` and `footprint_coverage` are finite
whenever their denominator is nonzero; with a zero denominator
`density_per_km2` is NaN or infinite (line 104 is unguarded) and
`footprint_coverage`'s `fillna(0)` clamps only the NaN case, not the
infinite one. -/
theorem derived_columns_finiteness {G : Type} (ops : GeomOps G)
    (pois : List (ℚ × ℚ)) (bs : List (Building G)) (grid : List (GridCell G))
    (hf : Bool) :
    (∀ row ∈ aggregate_buildings_to_grid ops bs grid hf,
      row.building_density.isFinite = true ∧
        (bDenom hf row.cell = 0 → row.building_density = PFloat.val 0) ∧
        (bDenom hf row.cell ≠ 0 → row.footprint_coverage.isFinite = true)) ∧
    (∀ row ∈ aggregate_pois_to_grid ops pois grid,
      row.cell.cell_area_km2_full ≠ 0 → row.density_per_km2.isFinite = true) := by
  constructor
  · intro row hrow
    rw [aggregate_buildings_to_grid] at hrow
    by_cases hcond : (bs.isEmpty || grid.isEmpty) = true
    · rw [if_pos hcond] at hrow
      rcases List.mem_map.mp hrow with ⟨c, hc, rfl⟩
      exact ⟨rfl, fun _ => rfl, fun _ => rfl⟩
    · rw [if_neg hcond] at hrow
      rcases List.mem_map.mp hrow with ⟨c, hc, rfl⟩
      refine ⟨?_, ?_, ?_⟩
      · by_cases hd : bDenom hf c = 0
        · simp [hd, PFloat.fillna0, PFloat.isFinite]
        · simp [hd, PFloat.pdiv, PFloat.fillna0, PFloat.isFinite]
      · intro hd
        simp [hd, PFloat.fillna0]
      · intro hd
        simp [hd, PFloat.pdiv, PFloat.mul100, PFloat.fillna0, PFloat.isFinite]
  · intro row hrow
    rw [aggregate_pois_to_grid] at hrow
    by_cases hcond : (pois.isEmpty || grid.isEmpty) = true
    · rw [if_pos hcond] at hrow
      cases hrow
    · rw [if_neg hcond] at hrow
      rcases List.mem_map.mp hrow with ⟨c, hc, rfl⟩
      intro hd
      simp [PFloat.pdiv, hd, PFloat.isFinite]

/-- Witness for C2 (amended) at a concrete input: one unit cell of full
area `1/1e6`, one building and one point; all three derived columns are
finite there, and the denominators are nonzero. -/
theorem derived_columns_finiteness_witness :
    bDenom true (⟨⟨0, 0, 1, 1⟩, 1/1000000, 1/1000000, 1, 0⟩ : GridCell Box) ≠ 0 ∧
    (aggregate_buildings_to_grid boxOps [⟨⟨0, 0, 1, 1⟩⟩]
        [⟨⟨0, 0, 1, 1⟩, 1/1000000, 1/1000000, 1, 0⟩] true).all
      (fun r => r.building_density.isFinite && r.footprint_coverage.isFinite) = true ∧
    (aggregate_pois_to_grid boxOps [(1/2, 1/2)]
        [⟨⟨0, 0, 1, 1⟩, 1/1000000, 1/1000000, 1, 0⟩]).all
      (fun r => r.density_per_km2.isFinite) = true := by
  have h := derived_columns_finiteness boxOps [(1/2, 1/2)] [⟨⟨0, 0, 1, 1⟩⟩]
    [(⟨⟨0, 0, 1, 1⟩, 1/1000000, 1/1000000, 1, 0⟩ : GridCell Box)] true
  refine ⟨by norm_num [bDenom], ?_, ?_⟩
  · rw [List.all_eq_true]
    intro r hr
    have hcell : r.cell = (⟨⟨0, 0, 1, 1⟩, 1/1000000, 1/1000000, 1, 0⟩ : GridCell Box) :=
      List.mem_singleton.mp (aggregate_buildings_cell_mem boxOps _ _ _ r hr)
    have hd : bDenom true r.cell ≠ 0 := by
      rw [hcell]
      norm_num [bDenom]
    obtain ⟨h1, -, h3⟩ := h.1 r hr
    rw [h1, h3 hd]
    rfl
  · rw [List.all_eq_true]
    intro r hr
    have hcell : r.cell = (⟨⟨0, 0, 1, 1⟩, 1/1000000, 1/1000000, 1, 0⟩ : GridCell Box) :=
      List.mem_singleton.mp (aggregate_pois_cell_mem boxOps _ _ r hr)
    have hd : r.cell.cell_area_km2_full ≠ 0 := by
      rw [hcell]
      norm_num
    exact h.2 r hr hd

/-- C1 is false as stated: aggregating an empty point feature set onto a
one-cell grid with `aggregate_pois_to_grid` returns an empty table (line
95 builds a fresh empty GeoDataFrame), so the grid cell is dropped
rather than kept with zero-filled indicator columns. -/
theorem aggregate_pois_empty_drops_grid :
    aggregate_pois_to_grid boxOps []
        [⟨⟨0, 0, 1, 1⟩, 1/1000000, 1/1000000, 1, 0⟩] = [] ∧
    ([⟨⟨0, 0, 1, 1⟩, 1/1000000, 1/1000000, 1, 0⟩] : List (GridCell Box)).length = 1 :=
  ⟨rfl, rfl⟩

/-- C1 (amended): with an empty point set or an empty grid
`aggregate_pois_to_grid` returns the empty table carrying the indicator
columns — every grid cell is dropped — while the empty-input case of
`aggregate_buildings_to_grid` does return the grid unchanged with all
four building indicator columns zero-filled (no cell dropped, no value
missing: `fillna` semantics never leave NaN there). -/
theorem empty_input_aggregation_behaviour {G : Type} (ops : GeomOps G)
    (pois : List (ℚ × ℚ)) (bs : List (Building G)) (grid : List (GridCell G))
    (hf : Bool) :
    (pois = [] ∨ grid = [] → aggregate_pois_to_grid ops pois grid = []) ∧
    (bs = [] →
      (aggregate_buildings_to_grid ops bs grid hf).map BuildingRow.cell = grid ∧
      ∀ row ∈ aggregate_buildings_to_grid ops bs grid hf,
        row.building_count = 0 ∧ row.building_area_km2 = 0 ∧
          row.building_density = PFloat.val 0 ∧
          row.footprint_coverage = PFloat.val 0) := by
  constructor
  · rintro (rfl | rfl)
    · rfl
    · rw [aggregate_pois_to_grid]
      simp
  · rintro rfl
    have hcond : (([] : List (Building G)).isEmpty || grid.isEmpty) = true := rfl
    constructor
    · rw [aggregate_buildings_to_grid, if_pos hcond, List.map_map]
      exact List.map_id grid
    · intro row hrow
      rw [aggregate_buildings_to_grid, if_pos hcond] at hrow
      rcases List.mem_map.mp hrow with ⟨c, hc, rfl⟩
      exact ⟨rfl, rfl, rfl, rfl⟩

/-- Witness for C1 (amended) at a concrete input: a one-cell grid with an
empty point set yields the empty poi table, and with an empty building
set yields the same grid row with all building columns zero. -/
theorem empty_input_aggregation_behaviour_witness :
    aggregate_pois_to_grid boxOps []
        [⟨⟨0, 0, 2, 2⟩, 4/1000000, 4/1000000, 1, 0⟩] = [] ∧
    (aggregate_buildings_to_grid boxOps ([] : List (Building Box))
        [⟨⟨0, 0, 2, 2⟩, 4/1000000, 4/1000000, 1, 0⟩] true).map BuildingRow.cell =
      [⟨⟨0, 0, 2, 2⟩, 4/1000000, 4/1000000, 1, 0⟩] ∧
    (aggregate_buildings_to_grid boxOps ([] : List (Building Box))
        [⟨⟨0, 0, 2, 2⟩, 4/1000000, 4/1000000, 1, 0⟩] true).all
      (fun r => decide (r.building_count = 0 ∧ r.building_area_km2 = 0 ∧
        r.building_density = PFloat.val 0 ∧ r.footprint_coverage = PFloat.val 0)) =
      true := by
  have h := empty_input_aggregation_behaviour boxOps ([] : List (ℚ × ℚ))
    ([] : List (Building Box)) [(⟨⟨0, 0, 2, 2⟩, 4/1000000, 4/1000000, 1, 0⟩ : GridCell Box)]
    true
  refine ⟨h.1 (Or.inl rfl), (h.2 rfl).1, ?_⟩
  rw [List.all_eq_true]
  intro r hr
  exact decide_eq_true ((h.2 rfl).2 r hr)

/-- In the rectangle model, every cell of `make_square_grid` is the
rectangle `[x1+i*s, min (x1+(i+1)*s) x2] × [y1+j*s, min (y1+(j+1)*s) y2]`
for some tile indices `i, j`: clipping cannot move the low edges (tiling
starts at the boundary's bounds) and caps the high edges at the
boundary. -/
theorem mem_grid_box (bnd : Box) (s : ℚ) (hs : 0 < s) (d : GridCell Box)
    (hd : d ∈ make_square_grid boxOps bnd s) :
    ∃ i j : ℕ, d.geometry = ⟨bnd.x1 + i * s, bnd.y1 + j * s,
      min (bnd.x1 + i * s + s) bnd.x2, min (bnd.y1 + j * s + s) bnd.y2⟩ := by
  obtain ⟨o, ho, hgeom, -, -, -⟩ := mem_make_square_grid boxOps bnd s d hd
  rw [tileOrigins] at ho
  rcases (mem_rowsOrigins _ _ _ _ _ o).mp ho with ⟨i, j, -, -, rfl⟩
  refine ⟨i, j, ?_⟩
  rw [hgeom]
  have hxle : bnd.x1 ≤ bnd.x1 + (i : ℚ) * s := by
    have := mul_nonneg (Nat.cast_nonneg i) hs.le
    linarith
  have hyle : bnd.y1 ≤ bnd.y1 + (j : ℚ) * s := by
    have := mul_nonneg (Nat.cast_nonneg j) hs.le
    linarith
  show Box.inter _ _ = _
  rw [Box.inter]
  simp only [Box.mk.injEq]
  exact ⟨max_eq_left hxle, max_eq_left hyle, rfl, rfl⟩

/-- In the rectangle model, a point whose x-coordinate lies on a vertical
grid line or on the boundary's right edge, or whose y-coordinate lies on
a horizontal grid line or on the boundary's top edge, is strictly inside
no cell of the grid: `within` is false against every cell. -/
theorem gridline_not_within (bnd : Box) (s : ℚ) (hs : 0 < s) (p : ℚ × ℚ)
    (hp : (∃ k : ℕ, p.1 = bnd.x1 + k * s) ∨ p.1 = bnd.x2 ∨
      (∃ k : ℕ, p.2 = bnd.y1 + k * s) ∨ p.2 = bnd.y2) :
    ∀ d ∈ make_square_grid boxOps bnd s, boxOps.withinPt p d.geometry = false := by
  intro d hd
  obtain ⟨i, j, hgeom⟩ := mem_grid_box bnd s hs d hd
  cases hval : boxOps.withinPt p d.geometry with
  | false => rfl
  | true =>
    exfalso
    rw [hgeom] at hval
    have hw : bnd.x1 + i * s < p.1 ∧ (p.1 < bnd.x1 + i * s + s ∧ p.1 < bnd.x2) ∧
        bnd.y1 + j * s < p.2 ∧ (p.2 < bnd.y1 + j * s + s ∧ p.2 < bnd.y2) := by
      have h2 := hval
      simp only [boxOps, Box.withinPt, decide_eq_true_eq, lt_min_iff] at h2
      exact h2
    obtain ⟨hx1, ⟨hx2, hx3⟩, hy1, ⟨hy2, hy3⟩⟩ := hw
    rcases hp with ⟨k, hk⟩ | hk | ⟨k, hk⟩ | hk
    · rw [hk] at hx1 hx2
      have h1 : (i : ℚ) * s < (k : ℚ) * s := by linarith
      have h2 : (k : ℚ) * s < ((i : ℚ) + 1) * s := by
        have hexp : ((i : ℚ) + 1) * s = (i : ℚ) * s + s := by ring
        rw [hexp]
        linarith
      have h3 : (i : ℚ) < (k : ℚ) := (mul_lt_mul_right hs).mp h1
      have h4 : (k : ℚ) < (i : ℚ) + 1 := (mul_lt_mul_right hs).mp h2
      have h5 : i < k := by exact_mod_cast h3
      have h6 : (k : ℚ) < ((i + 1 : ℕ) : ℚ) := by push_cast; linarith
      have h7 : k < i + 1 := by exact_mod_cast h6
      omega
    · rw [hk] at hx3
      exact absurd hx3 (lt_irrefl _)
    · rw [hk] at hy1 hy2
      have h1 : (j : ℚ) * s < (k : ℚ) * s := by linarith
      have h2 : (k : ℚ) * s < ((j : ℚ) + 1) * s := by
        have hexp : ((j : ℚ) + 1) * s = (j : ℚ) * s + s := by ring
        rw [hexp]
        linarith
      have h3 : (j : ℚ) < (k : ℚ) := (mul_lt_mul_right hs).mp h1
      have h4 : (k : ℚ) < (j : ℚ) + 1 := (mul_lt_mul_right hs).mp h2
      have h5 : j < k := by exact_mod_cast h3
      have h6 : (k : ℚ) < ((j + 1 : ℕ) : ℚ) := by push_cast; linarith
      have h7 : k < j + 1 := by exact_mod_cast h6
      omega
    · rw [hk] at hy3
      exact absurd hy3 (lt_irrefl _)

/-- C10: in the rectangle model, a point lying exactly on the boundary of
the clipped geometry of some cell of a `make_square_grid` grid —
including the shared edge of two adjacent cells — is `within` no cell of
that grid at all (shapely's `within` requires interior containment), so
aggregating it contributes to no cell's `count`. -/
theorem boundary_point_in_no_cell (bnd : Box) (s : ℚ) (hs : 0 < s) (p : ℚ × ℚ)
    (hp : ∃ c ∈ make_square_grid boxOps bnd s, Box.onBoundary p c.geometry) :
    (∀ d ∈ make_square_grid boxOps bnd s, boxOps.withinPt p d.geometry = false) ∧
    (∀ row ∈ aggregate_pois_to_grid boxOps [p] (make_square_grid boxOps bnd s),
      row.count = 0) := by
  obtain ⟨c, hc, hb⟩ := hp
  obtain ⟨i, j, hgeom⟩ := mem_grid_box bnd s hs c hc
  have hcases : (∃ k : ℕ, p.1 = bnd.x1 + k * s) ∨ p.1 = bnd.x2 ∨
      (∃ k : ℕ, p.2 = bnd.y1 + k * s) ∨ p.2 = bnd.y2 := by
    rw [hgeom] at hb
    simp only [Box.onBoundary] at hb
    rcases hb.1 with h | h | h | h
    · exact Or.inl ⟨i, h⟩
    · rcases le_total (bnd.x1 + i * s + s) bnd.x2 with hle | hle
      · rw [min_eq_left hle] at h
        refine Or.inl ⟨i + 1, ?_⟩
        rw [h]
        push_cast
        ring
      · rw [min_eq_right hle] at h
        exact Or.inr (Or.inl h)
    · exact Or.inr (Or.inr (Or.inl ⟨j, h⟩))
    · rcases le_total (bnd.y1 + j * s + s) bnd.y2 with hle | hle
      · rw [min_eq_left hle] at h
        refine Or.inr (Or.inr (Or.inl ⟨j + 1, ?_⟩))
        rw [h]
        push_cast
        ring
      · rw [min_eq_right hle] at h
        exact Or.inr (Or.inr (Or.inr h))
  refine ⟨gridline_not_within bnd s hs p hcases, ?_⟩
  intro row hrow
  rw [aggregate_pois_to_grid] at hrow
  by_cases hcond : (([p] : List (ℚ × ℚ)).isEmpty ||
      (make_square_grid boxOps bnd s).isEmpty) = true
  · rw [if_pos hcond] at hrow
    cases hrow
  · rw [if_neg hcond] at hrow
    rcases List.mem_map.mp hrow with ⟨d, hd, rfl⟩
    simp [List.filter_singleton, gridline_not_within bnd s hs p hcases d hd]

/-- Witness for C10 at a concrete input: the boundary `[0,2] × [0,1]`
with cell size 1 gives two adjacent unit cells; the point `(1, 1/2)` on
their shared edge is on the boundary of the first cell's geometry, is
`within` neither cell, and every row of the aggregation has count 0. -/
theorem boundary_point_in_no_cell_witness :
    ((make_square_grid boxOps ⟨0, 0, 2, 1⟩ 1).all
      (fun d => !boxOps.withinPt (1, 1/2) d.geometry)) = true ∧
    ((aggregate_pois_to_grid boxOps [(1, 1/2)]
        (make_square_grid boxOps ⟨0, 0, 2, 1⟩ 1)).all
      (fun r => decide (r.count = 0))) = true := by
  have hgrid : make_square_grid boxOps ⟨0, 0, 2, 1⟩ 1 =
      [⟨⟨0, 0, 1, 1⟩, 1/1000000, 1/1000000, 1, 0⟩,
       ⟨⟨1, 0, 2, 1⟩, 1/1000000, 1/1000000, 1, 1⟩] := by
    norm_num [make_square_grid, tileOrigins, stepCount, rowsOrigins, colOrigins,
      withIds, cellOfGeom, boxOps, Box.inter, Box.area, List.filter, Nat.ceil_eq_iff]
  have h := boundary_point_in_no_cell ⟨0, 0, 2, 1⟩ 1 (by norm_num) (1, 1/2)
    ⟨⟨⟨0, 0, 1, 1⟩, 1/1000000, 1/1000000, 1, 0⟩,
     by rw [hgrid]; exact List.mem_cons_self _ _,
     by norm_num [Box.onBoundary]⟩
  constructor
  · rw [List.all_eq_true]
    intro d hd
    rw [h.1 d hd]
    rfl
  · rw [List.all_eq_true]
    intro r hr
    exact decide_eq_true (h.2 r hr)
